import Mathlib

/-!
Verification development for the `digitalregistrar` pipeline.

We shallowly embed the extraction orchestrator (`src/pipeline.py`,
`CancerPipeline.forward`), the Model Registry (`src/models/modellist.py`,
`organmodels`), and the result normalizers
(`src/util/predictiondump.py`, `dump_prediction_plain`, `dump_prediction`,
`_to_json_safe`) and prove the claimed properties about them.

Python strings are embedded as `List Char` where character-level behaviour
matters (paragraph splitting, stripping); dictionary keys use Lean `String`.
Python values flowing through the normalizer are embedded as the inductive
type `Val`.  Backend (LLM) calls are external collaborators: the orchestrator
is parameterized by an environment `Env` giving, for each call site, the
result of that call (`Except` models a Python call that may raise).
-/

namespace DigitalRegistrar

/-- Python `str` at character granularity (for splitting/stripping). -/
abbrev PyStr := List Char

/-- Characters stripped by Python `str.strip()` (ASCII whitespace). -/
def isPySpace (c : Char) : Bool :=
  c = ' ' || c = '\t' || c = '\n' || c = '\r' || c = '\x0b' || c = '\x0c'

/-- Python `s.split('\n\n')`: split on non-overlapping occurrences of the
two-character separator, scanning left to right (pipeline.py line 71). -/
def splitNN : PyStr → List PyStr
  | [] => [[]]
  | '\n' :: '\n' :: rest => [] :: splitNN rest
  | c :: rest =>
    match splitNN rest with
    | [] => [[c]]
    | h :: t => (c :: h) :: t

/-- Remove trailing characters satisfying `isPySpace`. -/
def dropTrailing (l : PyStr) : PyStr :=
  (l.reverse.dropWhile isPySpace).reverse

/-- Python `str.strip()`: drop leading and trailing whitespace. -/
def pyStripL (l : PyStr) : PyStr :=
  dropTrailing (l.dropWhile isPySpace)

/-- The paragraph sequence computed by the orchestrator
(pipeline.py lines 71-72):
`paragraphs = report.split('\n\n'); [p.strip() for p in paragraphs if p.strip()]`. -/
def paragraphsOf (report : PyStr) : List PyStr :=
  (((splitNN report).map pyStripL).filter (fun p => !p.isEmpty))

/-- Embedded Python values flowing through the normalizers.
`predV` is a DSPy `Prediction` carrying its `_store`; `objV (some v) pid`
is an object whose `.dict()`/`.to_dict()` method returns `v`;
`objV none pid` is an object with no usable export method (absent or
raising); `datetimeV iso` is a `datetime`/`date` whose `isoformat()` is
`iso`; `decimalV f` is a `Decimal` whose `float()` is the float with
payload `f`; `npIntV`/`npFloatV`/`npArrayV` are numpy scalars/arrays. -/
inductive Val where
  | noneV : Val
  | boolV (b : Bool) : Val
  | intV (n : Int) : Val
  | floatV (f : Int) : Val
  | strV (s : String) : Val
  | listV (xs : List Val) : Val
  | dictV (es : List (String × Val)) : Val
  | predV (store : List (String × Val)) : Val
  | datetimeV (iso : String) : Val
  | decimalV (f : Int) : Val
  | npIntV (n : Int) : Val
  | npFloatV (f : Int) : Val
  | npArrayV (xs : List Val) : Val
  | objV (ex : Option Val) (pid : Nat) : Val
deriving Repr

/-- `p` is a prefix of `k`, on character lists. -/
def isPrefixL : PyStr → PyStr → Bool
  | [], _ => true
  | _ :: _, [] => false
  | a :: as, b :: bs => a = b && isPrefixL as bs

/-- Python `k.startswith(p)`. -/
def startsW (k p : String) : Bool := isPrefixL p.data k.data

/-- Python `k.startswith(("_lm_usage", "_inputs", "_completions"))`
(predictiondump.py line 54). -/
def bookkeepingKey (k : String) : Bool :=
  startsW k "_lm_usage" || startsW k "_inputs" || startsW k "_completions"

/-- Python `k.startswith("_")` (predictiondump.py line 59). -/
def underscoreKey (k : String) : Bool := startsW k "_"

mutual
/-- The inner `to_plain` of `dump_prediction_plain`
(predictiondump.py lines 47-75), by cases on the argument's kind. -/
def toPlain : Val → Val
  | .noneV => .noneV
  | .boolV b => .boolV b
  | .intV n => .intV n
  | .floatV f => .floatV f
  | .strV s => .strV s
  | .predV store => .dictV (toPlainPredEntries store)
  | .dictV es => .dictV (toPlainMapEntries es)
  | .listV xs => .listV (toPlainList xs)
  | .objV (some v) _ => toPlain v
  | .objV none pid => .objV none pid
  | .datetimeV iso => .datetimeV iso
  | .decimalV f => .decimalV f
  | .npIntV n => .npIntV n
  | .npFloatV f => .npFloatV f
  | .npArrayV xs => .npArrayV xs

/-- Prediction branch comprehension: keep entries whose key does not start
with a bookkeeping prefix, recursing on values. -/
def toPlainPredEntries : List (String × Val) → List (String × Val)
  | [] => []
  | (k, v) :: es =>
    if bookkeepingKey k then toPlainPredEntries es
    else (k, toPlain v) :: toPlainPredEntries es

/-- Mapping branch comprehension: keep entries whose (string) key does not
start with `"_"`, recursing on values. -/
def toPlainMapEntries : List (String × Val) → List (String × Val)
  | [] => []
  | (k, v) :: es =>
    if underscoreKey k then toPlainMapEntries es
    else (k, toPlain v) :: toPlainMapEntries es

/-- List/tuple/set branch: elementwise recursion. -/
def toPlainList : List Val → List Val
  | [] => []
  | v :: vs => toPlain v :: toPlainList vs
end

/-- The entries of `dump_prediction_plain`'s result: the top-level wrap
(predictiondump.py line 79) makes the result a dict, wrapping a non-dict
result as `{"value": result}`. -/
def dppEntries (v : Val) : List (String × Val) :=
  match toPlain v with
  | .dictV es => es
  | r => [("value", r)]

/-- `dump_prediction_plain` (predictiondump.py lines 42-79): always a dict. -/
def dump_prediction_plain (v : Val) : Val := .dictV (dppEntries v)

example : toPlain (.listV [.intV 3]) = .listV [.intV 3] := rfl
example : dppEntries (.predV [("_foo", .intV 1), ("a", .intV 2)])
    = [("_foo", .intV 1), ("a", .intV 2)] := rfl
example : paragraphsOf ("A\n\nB\n\n  \n\nC".data) = ["A".data, "B".data, "C".data] := by decide

/-- `_to_json_safe` (predictiondump.py lines 23-38): coerce known
non-primitive scalar kinds to JSON-safe values, otherwise return the
value unchanged.  `datetime`/`date` yield their `isoformat()` string,
`Decimal` its `float()`, numpy scalars native numbers, numpy arrays
their `tolist()`. -/
def to_json_safe : Val → Val
  | .datetimeV iso => .strV iso
  | .decimalV f => .floatV f
  | .npIntV n => .intV n
  | .npFloatV f => .floatV f
  | .npArrayV xs => .listV xs
  | v => v

/-- Key-exclusion test of `dump_prediction` with its default arguments
(predictiondump.py lines 82-86, 103-107, 152-157): skip a key that is in
`exclude_keys = ("_lm_usage", "_inputs", "_completions")` or, since
`exclude_private=True`, starts with `"_"`. -/
def dpSkip (k : String) : Bool :=
  (k = "_lm_usage" || k = "_inputs" || k = "_completions") || underscoreKey k

mutual
/-- `dump_prediction` with its default arguments
(predictiondump.py lines 81-199), by cases on the argument's kind:
primitives unchanged; Prediction and dict filtered by `dpSkip` and
recursed; sequences recursed elementwise; objects with a working
`.to_dict()`/`.dict()` recursed on its result; everything else through
`_to_json_safe`. -/
def dump_prediction : Val → Val
  | .noneV => .noneV
  | .boolV b => .boolV b
  | .intV n => .intV n
  | .floatV f => .floatV f
  | .strV s => .strV s
  | .predV store => .dictV (dpEntries store)
  | .dictV es => .dictV (dpEntries es)
  | .listV xs => .listV (dpList xs)
  | .objV (some v) _ => dump_prediction v
  | .objV none pid => to_json_safe (.objV none pid)
  | .datetimeV iso => to_json_safe (.datetimeV iso)
  | .decimalV f => to_json_safe (.decimalV f)
  | .npIntV n => to_json_safe (.npIntV n)
  | .npFloatV f => to_json_safe (.npFloatV f)
  | .npArrayV xs => to_json_safe (.npArrayV xs)

/-- Entry traversal of `dump_prediction` for stores and dicts. -/
def dpEntries : List (String × Val) → List (String × Val)
  | [] => []
  | (k, v) :: es =>
    if dpSkip k then dpEntries es
    else (k, dump_prediction v) :: dpEntries es

/-- Sequence traversal of `dump_prediction`. -/
def dpList : List Val → List Val
  | [] => []
  | v :: vs => dump_prediction v :: dpList vs
end

/-! ## The extraction orchestrator (`src/pipeline.py`, `CancerPipeline.forward`) -/

/-- The classification result produced by `dspy.Predict(is_cancer)`
(models/common.py lines 57-64): `cancer_excision_report : bool`,
`cancer_category : Literal[...] | None`,
`cancer_category_others_description : str | None`. -/
structure Classification where
  cancer_excision_report : Bool
  cancer_category : Option String
  cancer_category_others_description : Option String
deriving DecidableEq, Repr

/-- The orchestrator's output document (pipeline.py lines 75-80 and
112-116).  The `cancer_category_others_description` key is present only
in the eligible branch: `none` means the key is absent from the dict,
`some d` means the key is present with (possibly null) value `d`.
`cancer_data` is a Python dict, embedded as a key-ordered entry list. -/
structure OutputDoc where
  cancer_excision_report : Bool
  cancer_category : Option String
  cancer_category_others_description : Option (Option String)
  cancer_data : List (String × Val)
deriving Repr

/-- The external collaborators of one `forward` invocation: the result of
each backend call the orchestrator can make.  `classify` is the
`analyzer_is_cancer` call on the paragraph sequence; `jsonize` is the
`ReportJsonize` call on the paragraph sequence and category, returning the
`.output` dict; `resolve` is whether `globals().get(name)` finds the
extractor class; `invoke` is the organ-specific extractor call on
(extractor name, raw report, structured document).  `Except` models a
Python call that may raise. -/
structure Env where
  classify : List PyStr → Except String Classification
  jsonize : List PyStr → Option String → Except String Val
  resolve : String → Bool
  invoke : String → PyStr → Val → Except String Val

/-- The Model Registry `organmodels` (models/modellist.py lines 1-13). -/
def organmodels : List (String × List String) :=
  [("lung", ["LungCancerNonnested", "LungCancerStaging", "LungCancerMargins",
    "LungCancerLN", "LungCancerBiomarkers", "LungCancerOthernested"]),
   ("colorectal", ["ColonCancerNonnested", "ColonCancerStaging", "ColonCancerMargins",
    "ColonCancerLN", "ColonCancerBiomarkers"]),
   ("prostate", ["ProstateCancerNonnested", "ProstateCancerStaging",
    "ProstateCancerMargins", "ProstateCancerLN"]),
   ("esophagus", ["EsophagusCancerNonnested", "EsophagusCancerStaging",
    "EsophagusCancerMargins", "EsophagusCancerLN"]),
   ("breast", ["BreastCancerNonnested", "DCIS", "BreastCancerGrading",
    "BreastCancerStaging", "BreastCancerMargins", "BreastCancerLN",
    "BreastCancerBiomarkers"]),
   ("pancreas", ["PancreasCancerNonnested", "PancreasCancerStaging",
    "PancreasCancerMargins", "PancreasCancerLN"]),
   ("thyroid", ["ThyroidCancerNonnested", "ThyroidCancerStaging",
    "ThyroidCancerMargins", "ThyroidCancerLN"]),
   ("cervix", ["CervixCancerNonnested", "CervixCancerStaging",
    "CervixCancerMargins", "CervixCancerLN"]),
   ("liver", ["LiverCancerNonnested", "LiverCancerExtent",
    "LiverCancerVascularInvasion", "LiverCancerStaging", "LiverCancerMargins",
    "LiverCancerLN"]),
   ("stomach", ["StomachCancerNonnested", "StomachCancerStaging",
    "StomachCancerMargins", "StomachCancerLN"])]

/-- Python assoc lookup for string-keyed dicts. -/
def pyGetL {α : Type} (es : List (String × α)) (k : String) : Option α :=
  match es with
  | [] => none
  | (k', v) :: rest => if k' = k then some v else pyGetL rest k

/-- `organmodels.get(category, [])` (pipeline.py line 93): the key may be
`None` (never a key of the dict) or a category string. -/
def organmodelsGet (c : Option String) : List String :=
  match c with
  | none => []
  | some k => (pyGetL organmodels k).getD []

/-- Python `d[k] = v` semantics inside `dict.update`: overwrite in place
if the key exists (position preserved), else append. -/
def setKey (d : List (String × Val)) (k : String) (v : Val) : List (String × Val) :=
  if d.any (fun e => e.1 = k) then
    d.map (fun e => if e.1 = k then (k, v) else e)
  else d ++ [(k, v)]

/-- Python `d.update(new)` (pipeline.py line 102): iterate `new`'s entries,
overwriting existing keys and appending fresh ones. -/
def pyUpdate (d new : List (String × Val)) : List (String × Val) :=
  new.foldl (fun acc e => setKey acc e.1 e.2) d

/-- Accumulated merge of a list of extractor dumps into an initially empty
`cancer_data` dict. -/
def mergeAll (dumps : List (List (String × Val))) : List (String × Val) :=
  dumps.foldl pyUpdate []

/-- The structured document available to the fan-out (pipeline.py lines
86-91): the `ReportJsonize` output, degraded to the empty dict when the
call raised. -/
def jsonReportOf (env : Env) (report : PyStr) (cat : Option String) : Val :=
  match env.jsonize (paragraphsOf report) cat with
  | .ok j => j
  | .error _ => .dictV []

/-- One step of the fan-out loop (pipeline.py lines 93-106): skip an
unresolvable identifier; on a successful invocation merge the normalized
result; on a raised invocation leave the accumulator unchanged. -/
def fanOutStep (env : Env) (report : PyStr) (jr : Val)
    (acc : List (String × Val)) (name : String) : List (String × Val) :=
  if env.resolve name then
    match env.invoke name report jr with
    | .ok resp => pyUpdate acc (dppEntries resp)
    | .error _ => acc
  else acc

/-- `CancerPipeline.forward` (pipeline.py lines 63-118), parameterized by
the registry lookup table (the code reads the global `organmodels`;
`forward` below instantiates it). -/
def forwardWith (reg : Option String → List String) (report : PyStr)
    (env : Env) : Except String OutputDoc :=
  match env.classify (paragraphsOf report) with
  | .error e => .error e
  | .ok ctx =>
    if ctx.cancer_excision_report then
      let jr := jsonReportOf env report ctx.cancer_category
      let data := (reg ctx.cancer_category).foldl (fanOutStep env report jr) []
      .ok ⟨true, ctx.cancer_category, some ctx.cancer_category_others_description, data⟩
    else
      .ok ⟨false, none, none, []⟩

/-- `CancerPipeline.forward` against the actual Model Registry. -/
def forward (report : PyStr) (env : Env) : Except String OutputDoc :=
  forwardWith organmodelsGet report env

/-- The classifier's fixed category enumeration
(models/common.py line 63, the `Literal` type of `cancer_category`). -/
def categoryEnum : List String :=
  ["stomach", "colorectal", "breast", "esophagus", "lung", "prostate",
   "thyroid", "pancreas", "cervix", "liver", "others"]

/-! ## Theorems -/

/-- C1: for every report whose classification result has eligibility false,
the orchestrator's output document is exactly
`{cancer_excision_report: false, cancer_category: null, cancer_data: {}}`
with no `cancer_category_others_description` key, independently of the
structuring and extractor collaborators (no such call is made): the result
is the same for every `jsonize`, `resolve` and `invoke`. -/
theorem c1_not_eligible_output (reg : Option String → List String) (report : PyStr)
    (cls : List PyStr → Except String Classification)
    (jz : List PyStr → Option String → Except String Val)
    (rs : String → Bool) (iv : String → PyStr → Val → Except String Val)
    (ctx : Classification)
    (hcls : cls (paragraphsOf report) = .ok ctx)
    (hne : ctx.cancer_excision_report = false) :
    forwardWith reg report ⟨cls, jz, rs, iv⟩ = .ok ⟨false, none, none, []⟩ := by
  simp [forwardWith, hcls, hne]

/-- Witness for C1 at a concrete non-eligible report. -/
theorem c1_witness :
    forwardWith organmodelsGet "benign nevus".data
      ⟨fun _ => .ok ⟨false, none, none⟩,
       fun _ _ => .ok (.dictV []),
       fun _ => true,
       fun _ _ _ => .ok (.predV [("margin", .strV "clear")])⟩
      = .ok ⟨false, none, none, []⟩ :=
  c1_not_eligible_output _ _ _ _ _ _ ⟨false, none, none⟩ rfl rfl

/-- C5: a raised classification call propagates out of `forward` uncaught,
while a raised structuring (`ReportJsonize`) call is caught: the run is the
same as one whose structuring returned the empty dict, and the pipeline
still returns an output document. -/
theorem c5_error_propagation (report : PyStr) (env : Env) (e : String)
    (ctx : Classification) :
    (env.classify (paragraphsOf report) = .error e →
      forward report env = .error e)
    ∧ (env.classify (paragraphsOf report) = .ok ctx →
      ctx.cancer_excision_report = true →
      env.jsonize (paragraphsOf report) ctx.cancer_category = .error e →
      forward report env
        = forward report { env with jsonize := fun _ _ => .ok (.dictV []) }
      ∧ ∃ doc, forward report env = .ok doc) := by
  refine ⟨fun h => by simp [forward, forwardWith, h], fun hok helig hjz => ?_⟩
  have hfwd : forward report env
      = .ok ⟨true, ctx.cancer_category, some ctx.cancer_category_others_description,
          (organmodelsGet ctx.cancer_category).foldl
            (fanOutStep env report (jsonReportOf env report ctx.cancer_category)) []⟩ := by
    simp [forward, forwardWith, hok, helig]
  refine ⟨?_, ⟨_, hfwd⟩⟩
  have hstep : fanOutStep { env with jsonize := fun _ _ => .ok (.dictV []) } = fanOutStep env :=
    rfl
  simp [forward, forwardWith, hok, helig, jsonReportOf, hjz, hstep]

/-- Witness for C5: a concrete raising classification aborts the report,
and a concrete raising structuring call degrades to the empty dict. -/
theorem c5_witness :
    (forward "r".data
      ⟨fun _ => .error "backend down", fun _ _ => .ok (.dictV []),
       fun _ => false, fun _ _ _ => .error "unused"⟩ = .error "backend down")
    ∧ (forward "r".data
        ⟨fun _ => .ok ⟨true, some "others", some "appendix"⟩,
         fun _ _ => .error "jsonize boom",
         fun _ => false, fun _ _ _ => .error "unused"⟩
        = forward "r".data
          ⟨fun _ => .ok ⟨true, some "others", some "appendix"⟩,
           fun _ _ => .ok (.dictV []),
           fun _ => false, fun _ _ _ => .error "unused"⟩) :=
  ⟨(c5_error_propagation "r".data _ "backend down" ⟨false, none, none⟩).1 rfl,
   ((c5_error_propagation "r".data _ "jsonize boom"
      ⟨true, some "others", some "appendix"⟩).2 rfl rfl rfl).1⟩

/-- C10: every category in the classifier's enumeration except `"others"`
has a non-empty extractor list in the Model Registry; the lookup for
`"others"` or a null category yields the empty list, and an eligible run
with such a category attempts zero extractors, leaving `cancer_data`
empty. -/
theorem c10_registry_coverage :
    (∀ c ∈ categoryEnum, c ≠ "others" → organmodelsGet (some c) ≠ [])
    ∧ organmodelsGet (some "others") = []
    ∧ organmodelsGet none = []
    ∧ ∀ (report : PyStr) (env : Env) (ctx : Classification),
        env.classify (paragraphsOf report) = .ok ctx →
        ctx.cancer_excision_report = true →
        (ctx.cancer_category = some "others" ∨ ctx.cancer_category = none) →
        forward report env
          = .ok ⟨true, ctx.cancer_category,
              some ctx.cancer_category_others_description, []⟩ := by
  refine ⟨by decide, rfl, rfl, fun report env ctx hok helig hcat => ?_⟩
  rcases hcat with h | h <;>
    simp [forward, forwardWith, hok, helig, h, organmodelsGet, pyGetL, organmodels]

/-- Witness for C10 at a concrete eligible `"others"` report. -/
theorem c10_witness :
    forward "tumor of appendix".data
      ⟨fun _ => .ok ⟨true, some "others", some "appendix"⟩,
       fun _ _ => .ok (.dictV []),
       fun _ => true,
       fun _ _ _ => .ok (.predV [("margin", .strV "clear")])⟩
      = .ok ⟨true, some "others", some (some "appendix"), []⟩ :=
  c10_registry_coverage.2.2.2 _ _ ⟨true, some "others", some "appendix"⟩
    rfl rfl (Or.inl rfl)

/-! ## Fan-out merge lemmas (C2, C3) -/

/-- An extractor succeeds when its identifier resolves and its invocation
returns without raising. -/
def successful (env : Env) (report : PyStr) (jr : Val) (name : String) : Bool :=
  env.resolve name &&
    match env.invoke name report jr with
    | .ok _ => true
    | .error _ => false

/-- The normalized result contributed by an extractor (empty for a raising
invocation; only consulted for successful ones). -/
def dumpOf (env : Env) (report : PyStr) (jr : Val) (name : String) :
    List (String × Val) :=
  match env.invoke name report jr with
  | .ok r => dppEntries r
  | .error _ => []

/-- The fan-out loop, skipping failures, merges exactly the dumps of the
successful extractors, in list order. -/
theorem foldl_fanOutStep (env : Env) (report : PyStr) (jr : Val) :
    ∀ (names : List String) (acc : List (String × Val)),
      names.foldl (fanOutStep env report jr) acc
        = ((names.filter (successful env report jr)).map
            (dumpOf env report jr)).foldl pyUpdate acc := by
  intro names
  induction names with
  | nil => intro acc; rfl
  | cons n rest ih =>
    intro acc
    by_cases hr : env.resolve n = true
    · rcases hiv : env.invoke n report jr with e | r
      · have hs : successful env report jr n = false := by
          simp [successful, hr, hiv]
        simp [List.foldl_cons, List.filter_cons, hs, fanOutStep, hr, hiv, ih]
      · have hs : successful env report jr n = true := by
          simp [successful, hr, hiv]
        simp [List.foldl_cons, List.filter_cons, hs, fanOutStep, hr, hiv, ih,
          dumpOf]
    · have hs : successful env report jr n = false := by
        simp [successful, hr]
      simp [List.foldl_cons, List.filter_cons, hs, fanOutStep, hr, ih]

/-- C3: for every eligible report, failures (raising invocations or
unresolvable identifiers) are skipped without aborting the fan-out: the
pipeline still returns an output document whose `cancer_data` is the
merge, in registry order, of the normalized results of exactly the
successful extractors. -/
theorem c3_failure_isolation (report : PyStr) (env : Env) (ctx : Classification)
    (hok : env.classify (paragraphsOf report) = .ok ctx)
    (helig : ctx.cancer_excision_report = true) :
    forward report env
      = .ok ⟨true, ctx.cancer_category, some ctx.cancer_category_others_description,
          mergeAll (((organmodelsGet ctx.cancer_category).filter
              (successful env report (jsonReportOf env report ctx.cancer_category))).map
            (dumpOf env report (jsonReportOf env report ctx.cancer_category)))⟩ := by
  simp [forward, forwardWith, hok, helig, foldl_fanOutStep, mergeAll]

/-- Witness for C3: a lung report with one raising extractor, one
unresolvable identifier and the rest succeeding. -/
theorem c3_witness :
    forward "lung mass".data
      ⟨fun _ => .ok ⟨true, some "lung", none⟩,
       fun _ _ => .ok (.dictV []),
       fun name => name ≠ "LungCancerStaging",
       fun name _ _ =>
         if name = "LungCancerMargins" then .error "timeout"
         else .ok (.predV [("field_" ++ name, .strV name)])⟩
      = .ok ⟨true, some "lung", some none,
          mergeAll ((((organmodelsGet (some "lung")).filter
              (successful
                ⟨fun _ => .ok ⟨true, some "lung", none⟩,
                 fun _ _ => .ok (.dictV []),
                 fun name => name ≠ "LungCancerStaging",
                 fun name _ _ =>
                   if name = "LungCancerMargins" then .error "timeout"
                   else .ok (.predV [("field_" ++ name, .strV name)])⟩
                "lung mass".data (.dictV []))).map
            (dumpOf
              ⟨fun _ => .ok ⟨true, some "lung", none⟩,
               fun _ _ => .ok (.dictV []),
               fun name => name ≠ "LungCancerStaging",
               fun name _ _ =>
                 if name = "LungCancerMargins" then .error "timeout"
                 else .ok (.predV [("field_" ++ name, .strV name)])⟩
              "lung mass".data (.dictV []))))⟩ :=
  c3_failure_isolation _ _ ⟨true, some "lung", none⟩ rfl rfl

/-- Lookup distributes over append. -/
theorem pyGetL_append {α : Type} (d e : List (String × α)) (k : String) :
    pyGetL (d ++ e) k
      = match pyGetL d k with
        | some v => some v
        | none => pyGetL e k := by
  induction d with
  | nil => rfl
  | cons hd t ih =>
    rcases hd with ⟨k', v⟩
    by_cases h : k' = k <;> simp [pyGetL, h, ih]

/-- A key absent from every entry is not found. -/
theorem pyGetL_eq_none_of_not_any {α : Type} (k : String) :
    ∀ (d : List (String × α)), d.any (fun e => e.1 = k) = false →
      pyGetL d k = none := by
  intro d
  induction d with
  | nil => intro; rfl
  | cons hd t ih =>
    rcases hd with ⟨k', v⟩
    intro h
    simp only [List.any_cons, Bool.or_eq_false_iff, decide_eq_false_iff_not] at h
    simp [pyGetL, h.1, ih (by simpa using h.2)]

/-- Overwriting an existing key makes it map to the new value. -/
theorem pyGetL_overwrite (k : String) (v : Val) :
    ∀ (d : List (String × Val)), d.any (fun e => e.1 = k) = true →
      pyGetL (d.map (fun e => if e.1 = k then (k, v) else e)) k = some v := by
  intro d
  induction d with
  | nil => intro h; simp at h
  | cons hd t ih =>
    rcases hd with ⟨k0, w⟩
    intro h
    simp only [List.map_cons]
    by_cases hk : k0 = k
    · rw [if_pos hk]; simp [pyGetL]
    · rw [if_neg hk]
      have ht : t.any (fun e => e.1 = k) = true := by
        simp only [List.any_cons, decide_eq_true_eq, Bool.or_eq_true] at h
        rcases h with h | h
        · exact absurd h hk
        · exact h
      simp [pyGetL, hk, ih ht]

/-- `setKey` makes the written key map to the written value. -/
theorem pyGetL_setKey_same (d : List (String × Val)) (k : String) (v : Val) :
    pyGetL (setKey d k v) k = some v := by
  unfold setKey
  by_cases h : d.any (fun e => e.1 = k) = true
  · rw [if_pos h]; exact pyGetL_overwrite k v d h
  · rw [if_neg h, pyGetL_append,
      pyGetL_eq_none_of_not_any k d
        (by simp only [Bool.not_eq_true] at h; exact h)]
    simp [pyGetL]

/-- Overwriting one key's value leaves lookups of other keys unchanged. -/
theorem pyGetL_map_ne (k k' : String) (v : Val) (h : k' ≠ k) :
    ∀ (d : List (String × Val)),
      pyGetL (d.map (fun e => if e.1 = k then (k, v) else e)) k' = pyGetL d k' := by
  intro d
  induction d with
  | nil => rfl
  | cons hd t ih =>
    rcases hd with ⟨k0, w⟩
    simp only [List.map_cons]
    by_cases hk : k0 = k
    · rw [if_pos hk]
      have h1 : ¬(k = k') := fun he => h he.symm
      have h2 : ¬(k0 = k') := fun he => h1 (hk.symm.trans he)
      simp [pyGetL, h1, h2, ih]
    · rw [if_neg hk]
      by_cases hk' : k0 = k'
      · simp [pyGetL, hk']
      · simp [pyGetL, hk', ih]

/-- `setKey` leaves every other key unchanged. -/
theorem pyGetL_setKey_ne (d : List (String × Val)) (k k' : String) (v : Val)
    (h : k' ≠ k) : pyGetL (setKey d k v) k' = pyGetL d k' := by
  unfold setKey
  by_cases ha : d.any (fun e => e.1 = k) = true
  · rw [if_pos ha, pyGetL_map_ne k k' v h d]
  · rw [if_neg ha, pyGetL_append]
    rcases hg : pyGetL d k' with _ | w <;> simp [pyGetL, h.symm, hg]

/-- A key not among the entry keys is not found. -/
theorem pyGetL_eq_none_of_not_mem (k : String) :
    ∀ (d : List (String × Val)), k ∉ d.map Prod.fst → pyGetL d k = none := by
  intro d
  induction d with
  | nil => intro; rfl
  | cons hd t ih =>
    rcases hd with ⟨k0, v⟩
    intro h
    simp only [List.map_cons, List.mem_cons, not_or] at h
    have : ¬(k0 = k) := fun he => h.1 he.symm
    simp [pyGetL, this, ih h.2]

/-- Lookup after `dict.update`: a key present in the update (whose keys,
being a Python dict's, are distinct) maps to the update's value; any other
key keeps its old binding. -/
theorem pyGetL_pyUpdate (k : String) :
    ∀ (new d : List (String × Val)), (new.map Prod.fst).Nodup →
      pyGetL (pyUpdate d new) k
        = match pyGetL new k with
          | some v => some v
          | none => pyGetL d k := by
  intro new
  induction new with
  | nil => intro d _; rfl
  | cons hd rest ih =>
    rcases hd with ⟨k0, v0⟩
    intro d hnd
    simp only [List.map_cons, List.nodup_cons] at hnd
    have hstep : pyUpdate d ((k0, v0) :: rest) = pyUpdate (setKey d k0 v0) rest := rfl
    rw [hstep, ih (setKey d k0 v0) hnd.2]
    by_cases hk : k0 = k
    · subst hk
      rw [pyGetL_eq_none_of_not_mem k0 rest hnd.1]
      simp [pyGetL, pyGetL_setKey_same]
    · have : ¬(k0 = k) := hk
      simp [pyGetL, this, pyGetL_setKey_ne d k0 k v0 (fun he => hk he.symm)]

/-- C2: for every eligible report and registry list `[A, B]` run in list
order, when both extractors succeed and both normalized results carry the
key `"margin"` (with a Python dict's distinct keys), the merged
`cancer_data` holds B's value for `"margin"` — later extractors overwrite
earlier ones. -/
theorem c2_last_write_wins (reg : Option String → List String) (report : PyStr)
    (env : Env) (A B : String) (ctx : Classification) (va vb : Val) (ra rb : Val)
    (hok : env.classify (paragraphsOf report) = .ok ctx)
    (helig : ctx.cancer_excision_report = true)
    (hreg : reg ctx.cancer_category = [A, B])
    (hrA : env.resolve A = true) (hrB : env.resolve B = true)
    (hiA : env.invoke A report (jsonReportOf env report ctx.cancer_category) = .ok ra)
    (hiB : env.invoke B report (jsonReportOf env report ctx.cancer_category) = .ok rb)
    (hA : pyGetL (dppEntries ra) "margin" = some va)
    (hB : pyGetL (dppEntries rb) "margin" = some vb)
    (hnd : ((dppEntries rb).map Prod.fst).Nodup) :
    ∃ doc, forwardWith reg report env = .ok doc
      ∧ pyGetL doc.cancer_data "margin" = some vb := by
  have hdata : (reg ctx.cancer_category).foldl
      (fanOutStep env report (jsonReportOf env report ctx.cancer_category)) []
      = pyUpdate (pyUpdate [] (dppEntries ra)) (dppEntries rb) := by
    rw [hreg]
    simp [fanOutStep, hrA, hrB, hiA, hiB]
  refine ⟨⟨true, ctx.cancer_category, some ctx.cancer_category_others_description,
      pyUpdate (pyUpdate [] (dppEntries ra)) (dppEntries rb)⟩, ?_, ?_⟩
  · simp [forwardWith, hok, helig, hdata]
  · rw [pyGetL_pyUpdate "margin" (dppEntries rb) _ hnd, hB]

/-- Witness for C2: two successful extractors both producing `"margin"`;
the merged document holds the second one's value. -/
theorem c2_witness :
    ∃ doc,
      forwardWith (fun _ => ["MarginsV1", "MarginsV2"]) "specimen".data
        ⟨fun _ => .ok ⟨true, some "lung", none⟩,
         fun _ _ => .ok (.dictV []),
         fun _ => true,
         fun name _ _ =>
           if name = "MarginsV1" then .ok (.predV [("margin", .strV "positive")])
           else .ok (.predV [("margin", .strV "negative")])⟩
        = .ok doc
      ∧ pyGetL doc.cancer_data "margin" = some (.strV "negative") :=
  c2_last_write_wins (fun _ => ["MarginsV1", "MarginsV2"]) "specimen".data
    _ "MarginsV1" "MarginsV2" ⟨true, some "lung", none⟩
    (.strV "positive") (.strV "negative")
    (.predV [("margin", .strV "positive")]) (.predV [("margin", .strV "negative")])
    rfl rfl rfl rfl rfl rfl rfl rfl rfl (by decide)

/-! ## Paragraph splitting (C6) -/

theorem dropTrailing_eq_rdropWhile (x : PyStr) :
    dropTrailing x = x.rdropWhile isPySpace := rfl

/-- Dropping a prefix cannot lengthen a list. -/
theorem length_dropWhile_le_len (p : Char → Bool) (l : PyStr) :
    (l.dropWhile p).length ≤ l.length := by
  induction l with
  | nil => simp
  | cons a t ih =>
    rw [List.dropWhile_cons]
    by_cases h : p a = true
    · rw [if_pos h]
      simp only [List.length_cons]
      omega
    · rw [if_neg h]

/-- A leading-stripped list stays unchanged under a further leading strip
after its trailing strip: its head (if any) fails `isPySpace`. -/
theorem stripped_head_not_space (m : PyStr) (hmfix : m.dropWhile isPySpace = m) :
    (m.rdropWhile isPySpace).dropWhile isPySpace = m.rdropWhile isPySpace := by
  rcases hre : m.rdropWhile isPySpace with _ | ⟨a, r'⟩
  · rfl
  · obtain ⟨t, ht⟩ := List.rdropWhile_prefix isPySpace m
    rw [hre] at ht
    have hm2 : m = a :: (r' ++ t) := by rw [← ht]; simp
    have hpa : isPySpace a = false := by
      by_contra hcon
      have hpa' : isPySpace a = true := by simpa using hcon
      rw [hm2, List.dropWhile_cons] at hmfix
      simp only [hpa', if_true] at hmfix
      have hlen := congrArg List.length hmfix
      have hle := length_dropWhile_le_len isPySpace (r' ++ t)
      simp only [List.length_cons, List.length_append] at hlen hle
      omega
    rw [List.dropWhile_cons]
    simp [hpa]

/-- Python `strip` is idempotent. -/
theorem pyStripL_idem (l : PyStr) : pyStripL (pyStripL l) = pyStripL l := by
  simp only [pyStripL, dropTrailing_eq_rdropWhile]
  rw [stripped_head_not_space (l.dropWhile isPySpace)
    (List.dropWhile_idempotent _ _)]
  exact List.rdropWhile_idempotent _ _

/-- C6: every paragraph handed to the classifier is trimmed and non-empty,
and the report `"A\n\nB\n\n  \n\nC"` yields exactly `["A", "B", "C"]`. -/
theorem c6_paragraph_splitting :
    (∀ (report p : PyStr), p ∈ paragraphsOf report → pyStripL p = p ∧ p ≠ [])
    ∧ paragraphsOf ("A\n\nB\n\n  \n\nC".data) = ["A".data, "B".data, "C".data] := by
  refine ⟨fun report p hp => ?_, by decide⟩
  unfold paragraphsOf at hp
  rw [List.mem_filter] at hp
  obtain ⟨hmem, hne⟩ := hp
  rw [List.mem_map] at hmem
  obtain ⟨q, _, rfl⟩ := hmem
  refine ⟨pyStripL_idem q, ?_⟩
  simpa using hne

/-- Witness for C6 at a concrete report with a trailing blank paragraph. -/
theorem c6_witness :
    pyStripL ("AB".data) = "AB".data ∧ "AB".data ≠ [] :=
  c6_paragraph_splitting.1 ("AB\n\n ".data) ("AB".data) (by decide)

/-! ## Normalizer key exclusion (C7) -/

/-- Lookup in the prediction-branch comprehension: bookkeeping-prefixed
keys are gone, all other keys map to their normalized values. -/
theorem pyGetL_toPlainPredEntries (k : String) :
    ∀ (store : List (String × Val)),
      pyGetL (toPlainPredEntries store) k
        = if bookkeepingKey k then none else (pyGetL store k).map toPlain := by
  intro store
  induction store with
  | nil => simp [toPlainPredEntries, pyGetL]
  | cons hd t ih =>
    rcases hd with ⟨k0, v0⟩
    rw [toPlainPredEntries]
    by_cases hb : bookkeepingKey k0 = true
    · rw [if_pos hb, ih]
      by_cases hk : k0 = k
      · subst hk
        simp [pyGetL, hb]
      · simp [pyGetL, hk]
    · rw [if_neg hb]
      by_cases hk : k0 = k
      · subst hk
        simp only [Bool.not_eq_true] at hb
        simp [pyGetL, hb]
      · simp [pyGetL, hk, ih]

/-- Lookup in the mapping-branch comprehension: underscore-prefixed keys
are gone, all other keys map to their normalized values. -/
theorem pyGetL_toPlainMapEntries (k : String) :
    ∀ (es : List (String × Val)),
      pyGetL (toPlainMapEntries es) k
        = if underscoreKey k then none else (pyGetL es k).map toPlain := by
  intro es
  induction es with
  | nil => simp [toPlainMapEntries, pyGetL]
  | cons hd t ih =>
    rcases hd with ⟨k0, v0⟩
    rw [toPlainMapEntries]
    by_cases hb : underscoreKey k0 = true
    · rw [if_pos hb, ih]
      by_cases hk : k0 = k
      · subst hk
        simp [pyGetL, hb]
      · simp [pyGetL, hk]
    · rw [if_neg hb]
      by_cases hk : k0 = k
      · subst hk
        simp only [Bool.not_eq_true] at hb
        simp [pyGetL, hb]
      · simp [pyGetL, hk, ih]

/-- C7 (amended): `dump_prediction_plain` drops, from a prediction's
store, exactly the keys starting with one of the bookkeeping prefixes
`"_lm_usage"`, `"_inputs"`, `"_completions"` — any other key, including
one starting with the internal marker `"_"`, is retained with its
normalized value — while a plain mapping drops every key starting with
`"_"`; a mapping with one underscore-prefixed key and one normal key
normalizes to the normal key alone. -/
theorem c7_key_exclusion :
    (∀ (store : List (String × Val)) (k : String), bookkeepingKey k = true →
      pyGetL (dppEntries (.predV store)) k = none)
    ∧ (∀ (store : List (String × Val)) (k : String) (v : Val),
        bookkeepingKey k = false → pyGetL store k = some v →
        pyGetL (dppEntries (.predV store)) k = some (toPlain v))
    ∧ (∀ (es : List (String × Val)) (k : String), underscoreKey k = true →
        pyGetL (dppEntries (.dictV es)) k = none)
    ∧ dppEntries (.dictV [("_internal", .intV 1), ("a", .intV 2)])
        = [("a", .intV 2)] := by
  refine ⟨fun store k hk => ?_, fun store k v hk hv => ?_, fun es k hk => ?_, rfl⟩
  · have : dppEntries (.predV store) = toPlainPredEntries store := rfl
    rw [this, pyGetL_toPlainPredEntries, if_pos hk]
  · have : dppEntries (.predV store) = toPlainPredEntries store := rfl
    rw [this, pyGetL_toPlainPredEntries, if_neg (by simp [hk]), hv]
    rfl
  · have : dppEntries (.dictV es) = toPlainMapEntries es := rfl
    rw [this, pyGetL_toPlainMapEntries, if_pos hk]

/-- Witness for C7: the key `"_foo"` starts with `"_"` but with no
bookkeeping prefix, and survives normalization of a prediction store. -/
theorem c7_witness :
    pyGetL (dppEntries (.predV [("_foo", .intV 1), ("a", .intV 2)])) "_foo"
      = some (toPlain (.intV 1)) :=
  c7_key_exclusion.2.1 [("_foo", .intV 1), ("a", .intV 2)] "_foo" (.intV 1)
    (by decide) rfl

/-- Counterexample for C7 as stated: normalizing a prediction whose store
holds the internal-marker-prefixed key `"_foo"` keeps that key — the
prediction branch does not exclude every key starting with `"_"`. -/
theorem c7_counterexample :
    dump_prediction_plain (.predV [("_foo", .intV 1), ("a", .intV 2)])
      = .dictV [("_foo", .intV 1), ("a", .intV 2)]
    ∧ underscoreKey "_foo" = true
    ∧ bookkeepingKey "_foo" = false :=
  ⟨rfl, by decide, by decide⟩

/-! ## Normalizer idempotence (C8) -/

/-- Values composed only of primitives (null, booleans, numbers, strings),
string-keyed mappings without internal-marker-prefixed keys, and
sequences. -/
inductive Plain : Val → Prop where
  | noneP : Plain .noneV
  | boolP (b : Bool) : Plain (.boolV b)
  | intP (n : Int) : Plain (.intV n)
  | floatP (f : Int) : Plain (.floatV f)
  | strP (s : String) : Plain (.strV s)
  | listP (xs : List Val) : (∀ v ∈ xs, Plain v) → Plain (.listV xs)
  | dictP (es : List (String × Val)) :
      (∀ e ∈ es, underscoreKey e.1 = false) →
      (∀ e ∈ es, Plain e.2) → Plain (.dictV es)

/-- Elementwise identity lifts through `toPlainList`. -/
theorem toPlainList_eq_self (xs : List Val) (h : ∀ v ∈ xs, toPlain v = v) :
    toPlainList xs = xs := by
  induction xs with
  | nil => rfl
  | cons v vs ih =>
    rw [toPlainList, h v (by simp),
      ih (fun w hw => h w (List.mem_cons_of_mem v hw))]

/-- Entry-wise identity lifts through `toPlainMapEntries` when no key is
underscore-prefixed. -/
theorem toPlainMapEntries_eq_self (es : List (String × Val))
    (hk : ∀ e ∈ es, underscoreKey e.1 = false)
    (hv : ∀ e ∈ es, toPlain e.2 = e.2) :
    toPlainMapEntries es = es := by
  induction es with
  | nil => rfl
  | cons e t ih =>
    rcases e with ⟨k, v⟩
    rw [toPlainMapEntries, if_neg (by simp [hk (k, v) (by simp)]),
      hv (k, v) (by simp),
      ih (fun e he => hk e (List.mem_cons_of_mem _ he))
         (fun e he => hv e (List.mem_cons_of_mem _ he))]

/-- `to_plain` is the identity on plain values. -/
theorem toPlain_of_plain (v : Val) (h : Plain v) : toPlain v = v := by
  induction h with
  | noneP => rfl
  | boolP b => rfl
  | intP n => rfl
  | floatP f => rfl
  | strP s => rfl
  | listP xs _ ih =>
    rw [toPlain, toPlainList_eq_self xs ih]
  | dictP es hk _ ih =>
    rw [toPlain, toPlainMapEntries_eq_self es hk ih]

/-- `dump_prediction_plain` fixes a plain dict. -/
theorem dpp_of_plain_dict (es : List (String × Val)) (hp : Plain (.dictV es)) :
    dump_prediction_plain (.dictV es) = .dictV es := by
  have hv := toPlain_of_plain _ hp
  simp [dump_prediction_plain, dppEntries, hv]

/-- C8: on values composed only of primitives, underscore-free string-keyed
mappings, and sequences, `dump_prediction_plain` is idempotent. -/
theorem c8_normalizer_idempotent (v : Val) (h : Plain v) :
    dump_prediction_plain (dump_prediction_plain v) = dump_prediction_plain v := by
  have hv := toPlain_of_plain v h
  by_cases hd : ∃ es, v = Val.dictV es
  · obtain ⟨es, rfl⟩ := hd
    rw [dpp_of_plain_dict es h, dpp_of_plain_dict es h]
  · have h1 : dppEntries v = [("value", v)] := by
      unfold dppEntries
      rw [hv]
      cases v
      case dictV es => exact absurd ⟨es, rfl⟩ hd
      all_goals rfl
    have hpw : Plain (.dictV [("value", v)]) :=
      Plain.dictP _
        (fun e he => by
          rw [show e = ("value", v) from by simpa using he]
          exact (by decide : underscoreKey "value" = false))
        (fun e he => by
          rw [show e = ("value", v) from by simpa using he]
          exact h)
    have hdpp : dump_prediction_plain v = .dictV [("value", v)] := by
      rw [dump_prediction_plain, h1]
    rw [hdpp, dpp_of_plain_dict _ hpw]

/-- Witness for C8 at a concrete plain nested value. -/
theorem c8_witness :
    dump_prediction_plain
        (dump_prediction_plain (.listV [.intV 3, .dictV [("a", .noneV)]]))
      = dump_prediction_plain (.listV [.intV 3, .dictV [("a", .noneV)]]) :=
  c8_normalizer_idempotent _
    (Plain.listP _ (fun v hv => by
      rcases List.mem_cons.mp hv with rfl | hv2
      · exact Plain.intP 3
      · rcases List.mem_cons.mp hv2 with rfl | hv3
        · exact Plain.dictP _ (fun e he => by
            rw [show e = ("a", Val.noneV) from by simpa using he]
            decide)
            (fun e he => by
              rw [show e = ("a", Val.noneV) from by simpa using he]
              exact Plain.noneP)
        · simp at hv3))

/-- C9: on every value matched by none of the earlier dispatch rules of
`dump_prediction` (no primitive, prediction, mapping, sequence, or working
export method), the JSON-safety coercions apply: date/time values become
their ISO-8601 text, decimals become floats, numpy scalars and arrays
become native numbers and sequences, and a value with no applicable
coercion is returned unchanged. -/
theorem c9_json_safety_fallback (iso : String) (f n : Int) (xs : List Val)
    (pid : Nat) :
    dump_prediction (.datetimeV iso) = .strV iso
    ∧ dump_prediction (.decimalV f) = .floatV f
    ∧ dump_prediction (.npIntV n) = .intV n
    ∧ dump_prediction (.npFloatV f) = .floatV f
    ∧ dump_prediction (.npArrayV xs) = .listV xs
    ∧ dump_prediction (.objV none pid) = .objV none pid
    ∧ dump_prediction (.datetimeV iso) = to_json_safe (.datetimeV iso)
    ∧ dump_prediction (.objV none pid) = to_json_safe (.objV none pid) :=
  ⟨rfl, rfl, rfl, rfl, rfl, rfl, rfl, rfl⟩

/-! ## The `others`-description invariant (C4) -/

/-- The documented output contract of the `is_cancer` signature
(models/common.py lines 63-64): the category enumeration names the
designated other-category `"others"`, and
`cancer_category_others_description` is to be non-null exactly when the
report is a cancer excision report and the category is `"others"`. -/
def classificationContract (c : Classification) : Prop :=
  (c.cancer_category_others_description ≠ none) ↔
    (c.cancer_excision_report = true ∧ c.cancer_category = some "others")

/-- Counterexample for C4 as stated: the classifier's designated
other-category is the string `"others"`, not `"other"`.  A valid eligible
classification obeying the signature's documented contract yields an
output document whose `cancer_category_others_description` is non-null
while `cancer_category` is `"others"` — which differs from `"other"` — so
the biconditional with `"other"` fails. -/
theorem c4_counterexample :
    classificationContract ⟨true, some "others", some "small intestine"⟩
    ∧ forward "tumor".data
        ⟨fun _ => .ok ⟨true, some "others", some "small intestine"⟩,
         fun _ _ => .ok (.dictV []),
         fun _ => true, fun _ _ _ => .error "unused"⟩
        = .ok ⟨true, some "others", some (some "small intestine"), []⟩
    ∧ (some "others" : Option String) ≠ some "other"
    ∧ "other" ∉ categoryEnum := by
  refine ⟨?_, rfl, by decide, by decide⟩
  simp [classificationContract]

/-- C4 (amended): for every eligible classification satisfying the
signature's documented contract, the output document's
`cancer_category_others_description` is non-null if and only if
`cancer_category` equals `"others"`. -/
theorem c4_others_description_iff (report : PyStr) (env : Env)
    (ctx : Classification) (doc : OutputDoc)
    (hok : env.classify (paragraphsOf report) = .ok ctx)
    (helig : ctx.cancer_excision_report = true)
    (hcontract : classificationContract ctx)
    (hfwd : forward report env = .ok doc) :
    (∃ s, doc.cancer_category_others_description = some (some s))
      ↔ doc.cancer_category = some "others" := by
  have hdoc : doc
      = ⟨true, ctx.cancer_category, some ctx.cancer_category_others_description,
          (organmodelsGet ctx.cancer_category).foldl
            (fanOutStep env report (jsonReportOf env report ctx.cancer_category)) []⟩ := by
    have : forward report env
        = .ok ⟨true, ctx.cancer_category, some ctx.cancer_category_others_description,
            (organmodelsGet ctx.cancer_category).foldl
              (fanOutStep env report (jsonReportOf env report ctx.cancer_category)) []⟩ := by
      simp [forward, forwardWith, hok, helig]
    rw [hfwd] at this
    exact (Except.ok.injEq _ _ ▸ this : _)
  subst hdoc
  unfold classificationContract at hcontract
  rw [helig] at hcontract
  simp only [true_and] at hcontract
  constructor
  · rintro ⟨s, hs⟩
    have : ctx.cancer_category_others_description = some s := by
      simpa using hs
    exact hcontract.mp (by simp [this])
  · intro hc
    have hne := hcontract.mpr hc
    rcases hd : ctx.cancer_category_others_description with _ | s
    · exact absurd hd hne
    · exact ⟨s, by simp [hd]⟩

/-- Witness for C4's amended theorem at a concrete eligible lung report
with a null description. -/
theorem c4_witness :
    (∃ s, ((⟨true, some "lung", some none, []⟩ : OutputDoc)).cancer_category_others_description
        = some (some s))
      ↔ ((⟨true, some "lung", some none, []⟩ : OutputDoc)).cancer_category = some "others" :=
  c4_others_description_iff "lung mass".data
    ⟨fun _ => .ok ⟨true, some "lung", none⟩,
     fun _ _ => .ok (.dictV []),
     fun _ => false, fun _ _ _ => .error "unused"⟩
    ⟨true, some "lung", none⟩ ⟨true, some "lung", some none, []⟩
    rfl rfl (by simp [classificationContract]) rfl

end DigitalRegistrar
